import Mathlib

/-!
Shallow embedding of `src/scriptUpdater.ts` (a self-update component for a
client-side script) and verification of its specification.

JavaScript strings are modelled as `List Char`; JavaScript numbers that hold
integral values (timestamps, version components, HTTP status codes) are
modelled as `Int`.  The host capabilities (key-value storage, `fetch`, the
file system, the archive extractor and the `Date` clock) are modelled as
explicit inputs: each operation becomes a pure function of the capability
results it consumes, returning its result together with the final state of
the affected capability.
-/

namespace ScriptUpdater

/-- A JavaScript string, as a list of its characters. -/
abbrev JSString := List Char

/-- Splits a string at every `.` character, like `"a.b".split(".")`:
the separators are dropped and the pieces between them (possibly empty)
are returned in order. -/
def splitOnDot : JSString → List JSString
  | [] => [[]]
  | c :: rest =>
    if c = '.' then [] :: splitOnDot rest
    else
      match splitOnDot rest with
      | [] => [[c]]
      | p :: ps => (c :: p) :: ps

/-- `parseInt` on a string of decimal digits (the only shape it is applied to
in `compareVersion`, which validates its inputs first). -/
def jsParseInt (s : JSString) : Int :=
  s.foldl (fun acc c => acc * 10 + (c.toNat - '0'.toNat)) 0

/-- The regular expression `^\d+(?:\.\d+){0,3}$` from `compareVersion`
(line 115 of `scriptUpdater.ts`): one to four dot-separated runs of one or
more ASCII digits. -/
def validVersion (s : JSString) : Bool :=
  let parts := splitOnDot s
  decide (1 ≤ parts.length) && decide (parts.length ≤ 4)
    && parts.all (fun p => !p.isEmpty && p.all Char.isDigit)

instance {ε α : Type} [DecidableEq ε] [DecidableEq α] : DecidableEq (Except ε α)
  | .error a, .error b =>
    if h : a = b then .isTrue (h ▸ rfl)
    else .isFalse (fun c => by cases c; exact h rfl)
  | .error _, .ok _ => .isFalse (fun c => by cases c)
  | .ok _, .error _ => .isFalse (fun c => by cases c)
  | .ok a, .ok b =>
    if h : a = b then .isTrue (h ▸ rfl)
    else .isFalse (fun c => by cases c; exact h rfl)

/-- Which parameter of `compareVersion` failed validation. -/
inductive Param where
  | a
  | b
deriving DecidableEq

/-- The error thrown by `compareVersion` when an argument does not match the
version grammar: `Error('Parameter "a" is not a version: "..."')`. -/
structure CompareError where
  param : Param
  value : JSString
deriving DecidableEq

/-- Pads a component list on the right with zeros up to length `n`
(the `aParts.push(...new Array(n - aParts.length).fill(0))` step). -/
def padZeros (l : List Int) (n : Nat) : List Int :=
  l ++ List.replicate (n - l.length) 0

/-- The comparison loop of `compareVersion` (lines 131-135): walk both
component lists in step and return the first non-zero difference
`aParts[i] - bParts[i]`, or `0` when the lists are exhausted. -/
def firstDiff : List Int → List Int → Int
  | [], _ => 0
  | _, [] => 0
  | a :: as, b :: bs => if a - b ≠ 0 then a - b else firstDiff as bs

/-- `compareVersion(a, b)` from `scriptUpdater.ts` lines 114-136: validate
both arguments against the version grammar (throwing a validation error
naming the offending parameter), split them into numeric components, pad the
shorter list with zeros, and return the first non-zero component difference. -/
def compareVersion (a b : JSString) : Except CompareError Int :=
  if ¬ validVersion a then .error ⟨.a, a⟩
  else if ¬ validVersion b then .error ⟨.b, b⟩
  else
    let aParts := (splitOnDot a).map jsParseInt
    let bParts := (splitOnDot b).map jsParseInt
    let n := max aParts.length bParts.length
    .ok (firstDiff (padZeros aParts n) (padZeros bParts n))

/-- The comparison value of two valid version strings: the integer
`compareVersion` returns when neither argument fails validation. -/
def cmpVal (a b : JSString) : Int :=
  ((compareVersion a b).toOption).getD 0

/-! ### Specification-side comparator

`specCompareVersion` is written from the words of the specification
(§4.1): parse both strings into their numeric components, pad the shorter
operand with trailing zero components to equal length, subtract
component-wise, and return the first non-zero signed difference (zero when
all components agree).  It is compared with the source-derived
`compareVersion` in the refinement theorem for the comparator claim. -/

/-- Spec §4.1: the numeric components of a dotted version string. -/
def specParts (s : JSString) : List Int :=
  (splitOnDot s).map jsParseInt

/-- Spec §4.1: pad with trailing zero components to length `n`. -/
def specPad (xs : List Int) (n : Nat) : List Int :=
  xs ++ List.replicate (n - xs.length) 0

/-- Spec §4.1: the first non-zero entry of a list of signed differences,
`0` when every entry is zero. -/
def specFirstNonzero : List Int → Int
  | [] => 0
  | x :: xs => if x ≠ 0 then x else specFirstNonzero xs

/-- Spec §4.1, assembled: pad both component lists to equal length, compare
component-wise left to right, return the first non-zero signed difference. -/
def specCompareVersion (a b : JSString) : Int :=
  let pa := specParts a
  let pb := specParts b
  let n := max pa.length pb.length
  specFirstNonzero (List.zipWith (fun x y => x - y) (specPad pa n) (specPad pb n))

/-! ### The JavaScript `Date` model

`updateAvailable` uses the host clock through `new Date()`, `getTime`,
`getDate`/`setDate`, `getMonth`/`setMonth` and `setHours(0,0,0,0)`.  A date
is modelled in local civil time as a year, a 0-based month, a 1-based
day-of-month and the milliseconds elapsed since local midnight; `getTime`
converts it to epoch milliseconds with the proleptic Gregorian calendar
(the calendar prescribed for ECMAScript dates), using the standard
days-from-civil algorithm.  `setDate`/`setMonth` store a possibly
out-of-range field; `daysFromCivilJS` normalises it exactly the way
JavaScript does (month overflow moves the year, day overflow moves the
month), so `getTime` after such an update agrees with JavaScript. -/

/-- Days between 1970-01-01 and the civil date `(year, m0, d)`, where `m0`
is a 0-based month index and `d` a 1-based day-of-month, both allowed to be
out of range exactly as after a JavaScript `setMonth`/`setDate`. -/
def daysFromCivilJS (year m0 d : Int) : Int :=
  let yn := year + m0.ediv 12
  let m := m0.emod 12 + 1
  let y := if m ≤ 2 then yn - 1 else yn
  let era := y.ediv 400
  let yoe := y - era * 400
  let mp := if m > 2 then m - 3 else m + 9
  let doy := (153 * mp + 2).ediv 5 + d - 1
  let doe := yoe * 365 + yoe.ediv 4 - yoe.ediv 100 + doy
  era * 146097 + doe - 719468

/-- A JavaScript `Date` in local civil time. -/
structure JSDate where
  year : Int
  /-- 0-based month, as in JavaScript (`0` = January). -/
  month : Int
  /-- 1-based day of month. -/
  day : Int
  /-- Milliseconds since local midnight. -/
  msOfDay : Int
deriving DecidableEq

/-- `Date.prototype.getTime()`: epoch milliseconds of the date. -/
def getTime (dt : JSDate) : Int :=
  daysFromCivilJS dt.year dt.month dt.day * 86400000 + dt.msOfDay

/-- `d.setHours(0, 0, 0, 0)`: truncates the time of day to local midnight. -/
def setHours0 (dt : JSDate) : JSDate :=
  { dt with msOfDay := 0 }

/-- `d.getDate()`: the day of month (valid on a freshly constructed date). -/
def getDate (dt : JSDate) : Int := dt.day

/-- `d.setDate(n)`: replaces the day of month (JavaScript normalises an
out-of-range value; here normalisation happens inside `getTime`). -/
def setDate (dt : JSDate) (n : Int) : JSDate :=
  { dt with day := n }

/-- `d.getMonth()`: the 0-based month (valid on a freshly constructed date). -/
def getMonth (dt : JSDate) : Int := dt.month

/-- `d.setMonth(n)`: replaces the 0-based month (JavaScript normalises an
out-of-range value; here normalisation happens inside `getTime`). -/
def setMonth (dt : JSDate) (n : Int) : JSDate :=
  { dt with month := n }

/-- `getIntervalDate(adjust?)` from `scriptUpdater.ts` lines 62-67: take the
current date, apply the optional adjustment, then truncate the time of day
to `00:00:00.000`.  The ambient `new Date()` is the explicit `now`. -/
def getIntervalDate (now : JSDate) (adjust : Option (JSDate → JSDate)) : JSDate :=
  setHours0 (match adjust with | none => now | some f => f now)

/-- The update-check intervals (`updateCheckIntervalValues`). -/
inductive UpdateCheckInterval where
  | everyTime
  | daily
  | weekly
  | monthly
deriving DecidableEq

/-- The `intervalDates` record from `updateAvailable` (lines 39-44):
`"every time"` maps to the current moment, the other intervals to
`getIntervalDate` with their respective adjustment. -/
def intervalDates (now : JSDate) : UpdateCheckInterval → JSDate
  | .everyTime => now
  | .daily => getIntervalDate now none
  | .weekly => getIntervalDate now (some fun d => setDate d (getDate d - 7))
  | .monthly => getIntervalDate now (some fun d => setMonth d (getMonth d - 1))

/-! ### The update check -/

/-- One manifest entry (`interface VersionData`). -/
structure VersionData where
  version : JSString
  date : JSString
  notes : JSString
  url : JSString
deriving DecidableEq

/-- The persisted cache record (`interface StorageData`). -/
structure StorageData where
  lastChecked : Int
  versions : List VersionData
deriving DecidableEq

/-- `Storage.get(storageKey) ?? { lastChecked: 0, versions: [] }` (lines
34-38): the stored record, or the default when none exists. -/
def loadCacheOrDefault (stored : Option StorageData) : StorageData :=
  stored.getD { lastChecked := 0, versions := [] }

/-- `getCache()` (lines 72-74): returns `Storage.get(storageKey)` directly,
with no default substituted for an absent record. -/
def getCache (stored : Option StorageData) : Option StorageData :=
  stored

/-- The outcome of `await fetch(url)` followed by `response.json()` inside
`updateAvailable`: the fetch either rejects (network error) or yields a
response with a success flag and a body that either parses as a version
list or fails to parse. -/
inductive FetchResult where
  | networkError
  | response (ok : Bool) (body : Option (List VersionData))
deriving DecidableEq

/-- An error surfaced by `updateAvailable`: the rejection of `fetch(url)`,
the rejection of `response.json()`, or a version-grammar validation error
propagated from `compareVersion` during filtering. -/
inductive UpdateError where
  | fetchFailed
  | jsonParseFailed
  | cmp (e : CompareError)
deriving DecidableEq

/-- The capability inputs consumed by one call to `updateAvailable`: the
current moment, the stored cache record, the result the fetch would
produce, and whether `Storage.set` would succeed. -/
structure UpdateEnv where
  now : JSDate
  storageGet : Option StorageData
  fetchResult : FetchResult
  storageSetOk : Bool
deriving DecidableEq

/-- The observable outcome of one call to `updateAvailable`: its returned
value or error, the cache record persisted in storage afterwards, and
whether a network fetch was issued. -/
structure UpdateOutcome where
  result : Except UpdateError (List VersionData)
  storage : Option StorageData
  didFetch : Bool
deriving DecidableEq

/-- `cached.versions.filter(v => compareVersion(v.version, currentVersion) > 0)`
(lines 56-58): keep, in order, the entries comparing greater than the
current version; a validation error thrown by the comparator on any visited
entry aborts the whole filter. -/
def filterNewer (vs : List VersionData) (currentVersion : JSString) :
    Except CompareError (List VersionData) :=
  match vs with
  | [] => .ok []
  | v :: rest => do
    let c ← compareVersion v.version currentVersion
    let tail ← filterNewer rest currentVersion
    if c > 0 then pure (v :: tail) else pure tail

/-- `updateAvailable(url, interval, currentVersion)` (lines 29-60): load the
cache (default when absent); if `cached.lastChecked` is at or before the
interval cutoff, fetch the manifest, parse it, replace the cached versions
wholesale, stamp `lastChecked` with the current time and persist
(best-effort); finally return the cached entries newer than
`currentVersion`.  The response's HTTP status is never inspected. -/
def updateAvailable (env : UpdateEnv) (interval : UpdateCheckInterval)
    (currentVersion : JSString) : UpdateOutcome :=
  let cached := loadCacheOrDefault env.storageGet
  if cached.lastChecked ≤ getTime (intervalDates env.now interval) then
    match env.fetchResult with
    | .networkError =>
      { result := .error .fetchFailed, storage := env.storageGet, didFetch := true }
    | .response _ none =>
      { result := .error .jsonParseFailed, storage := env.storageGet, didFetch := true }
    | .response _ (some vs) =>
      let cached2 : StorageData := { lastChecked := getTime env.now, versions := vs }
      let stored2 := if env.storageSetOk then some cached2 else env.storageGet
      { result := (filterNewer vs currentVersion).mapError UpdateError.cmp,
        storage := stored2, didFetch := true }
  else
    { result := (filterNewer cached.versions currentVersion).mapError UpdateError.cmp,
      storage := env.storageGet, didFetch := false }

/-! ### The installer: download, install, cleanup

The file system is modelled by the four locations the component touches:
the live script directory (`Script.directory`), the backup directory
(`scriptBackup`), the staging directory (`unzippedFolder`) and the
temporary archive file (`scriptUpdate.zip`).  A directory is `some` list of
its entry names when it exists, `none` when it does not.  Every mutating
file-system call is additionally recorded in an event trace so that
ordering and absence of writes are observable. -/

/-- The file-system locations used by the installer. -/
structure FileSystem where
  /-- `Script.directory`, the live script directory. -/
  live : Option (List JSString)
  /-- `scriptBackup = Script.directory + "_updateBackup"`. -/
  backup : Option (List JSString)
  /-- `unzippedFolder`, the staging directory for extracted updates. -/
  staging : Option (List JSString)
  /-- The temporary archive file `scriptUpdate.zip`. -/
  zipFile : Option (List JSString)
deriving DecidableEq

/-- A mutating file-system call made by `downloadUpdate`. -/
inductive FsEvent where
  | writeZip
  | createStaging
  | unzipInto
deriving DecidableEq

/-- `FileManager.unzip(path, unzippedFolder)`: the archive's entries are
extracted on top of the existing contents of the destination — entries with
the same name are overwritten, all other existing entries are kept. -/
def unzipMerge (existing archive : List JSString) : List JSString :=
  existing.filter (fun e => decide (e ∉ archive)) ++ archive

/-- The outcome of `await fetch(url)` inside `downloadUpdate`: a rejection,
or a response with its success flag, status, status text, and the binary
body — `none` when `Data.fromArrayBuffer` would yield no data, otherwise
the entry names the archive extracts to. -/
inductive DownloadFetch where
  | networkError
  | response (ok : Bool) (status : Int) (statusText : JSString)
      (bytes : Option (List JSString))
deriving DecidableEq

/-- An error surfaced by `downloadUpdate`: the rejection of `fetch(url)`,
the `DownloadError` thrown on a non-success status (carrying the URL and
the response's status and status text), or the generic
`Error("Could not convert from ArrayBuffer to data")`. -/
inductive DownloadErr where
  | network
  | download (url : JSString) (status : Int) (statusText : JSString)
  | conversion
deriving DecidableEq

/-- `DownloadError.prototype.toString()` (lines 147-149) and the message of
the generic conversion error (line 84), used to tell the failures apart in
user-facing diagnostics. -/
def downloadErrMessage : DownloadErr → JSString
  | .network => ("fetch failed".data)
  | .download url status statusText =>
    ("Failed to download the update from ".data) ++ url ++ (": ".data)
      ++ (toString status).data ++ (" ".data) ++ statusText
  | .conversion => ("Could not convert from ArrayBuffer to data".data)

/-- The observable outcome of one call to `downloadUpdate`: its returned
listing or error, the final file system, and the trace of mutating
file-system calls in order. -/
structure DownloadOutcome where
  result : Except DownloadErr (List JSString)
  fs : FileSystem
  events : List FsEvent
deriving DecidableEq

/-- `downloadUpdate(url)` (lines 76-93): fetch the archive; throw
`DownloadError` on a non-success status; fail on an unconvertible body;
otherwise write the archive file, create the staging directory only if it
does not already exist, extract the archive into it, and return its
recursive listing. -/
def downloadUpdate (url : JSString) (f : DownloadFetch) (fs : FileSystem) :
    DownloadOutcome :=
  match f with
  | .networkError => { result := .error .network, fs := fs, events := [] }
  | .response ok status statusText bytes =>
    if ¬ ok then
      { result := .error (.download url status statusText), fs := fs, events := [] }
    else
      match bytes with
      | none => { result := .error .conversion, fs := fs, events := [] }
      | some archive =>
        let fs1 : FileSystem := { fs with zipFile := some archive }
        let created := fs1.staging.isNone
        let fs2 : FileSystem :=
          if fs1.staging.isNone then { fs1 with staging := some [] } else fs1
        let merged := unzipMerge (fs2.staging.getD []) archive
        let fs3 : FileSystem := { fs2 with staging := some merged }
        { result := .ok merged, fs := fs3,
          events := [FsEvent.writeZip]
            ++ (if created then [FsEvent.createStaging] else [])
            ++ [FsEvent.unzipInto] }

/-- A rename performed by `installDownloadedScript`. -/
inductive InstallEvent where
  | renameLiveToBackup
  | renameStagingToLive
deriving DecidableEq

/-- `FileManager.rename(Script.directory, scriptBackup)` (line 96): the live
directory's contents move to the backup path and the live path is gone. -/
def renameLiveToBackup (fs : FileSystem) : FileSystem :=
  { fs with live := none, backup := fs.live }

/-- `FileManager.rename(unzippedFolder, Script.directory)` (line 97): the
staging directory's contents move to the live path and staging is gone. -/
def renameStagingToLive (fs : FileSystem) : FileSystem :=
  { fs with staging := none, live := fs.staging }

/-- The two renames of `installDownloadedScript`, in source order. -/
def installSteps : List (FileSystem → FileSystem) :=
  [renameLiveToBackup, renameStagingToLive]

/-- Runs the first `k` steps of the install sequence, modelling an
execution interrupted after `k` renames. -/
def runInstallSteps (k : Nat) (fs : FileSystem) : FileSystem :=
  (installSteps.take k).foldl (fun s f => f s) fs

/-- `installDownloadedScript()` (lines 95-98): rename the live directory to
the backup path, then rename the staging directory to the live path,
returning the final file system together with the rename trace in order. -/
def installDownloadedScript (fs : FileSystem) : FileSystem × List InstallEvent :=
  (renameStagingToLive (renameLiveToBackup fs),
   [InstallEvent.renameLiveToBackup, InstallEvent.renameStagingToLive])

/-- `cleanFiles()` (lines 100-107): remove the backup directory if present
and the staging directory if present. -/
def cleanFiles (fs : FileSystem) : FileSystem :=
  let fs1 := if fs.backup.isSome then { fs with backup := none } else fs
  if fs1.staging.isSome then { fs1 with staging := none } else fs1

/-! ## Theorems -/

/-! ### Lemmas about the comparator -/

theorem except_bind_ok {ε α β : Type} (a : α) (f : α → Except ε β) :
    (Except.ok a >>= f) = f a := rfl

theorem except_pure_eq {ε α : Type} (a : α) :
    (pure a : Except ε α) = Except.ok a := rfl

theorem firstDiff_eq_spec :
    ∀ xs ys : List Int,
      firstDiff xs ys = specFirstNonzero (List.zipWith (fun x y => x - y) xs ys)
  | [], ys => by cases ys <;> simp [firstDiff, specFirstNonzero]
  | _ :: _, [] => by simp [firstDiff, specFirstNonzero]
  | x :: xs, y :: ys => by
    simp only [firstDiff, List.zipWith, specFirstNonzero]
    by_cases h : x - y ≠ 0
    · simp [h]
    · simp [h, firstDiff_eq_spec xs ys]

theorem firstDiff_self : ∀ xs : List Int, firstDiff xs xs = 0
  | [] => rfl
  | x :: xs => by simp [firstDiff, firstDiff_self xs]

theorem firstDiff_antisymm :
    ∀ xs ys : List Int, firstDiff xs ys = -firstDiff ys xs
  | [], ys => by cases ys <;> simp [firstDiff]
  | _ :: _, [] => by simp [firstDiff]
  | x :: xs, y :: ys => by
    simp only [firstDiff]
    by_cases h : x - y ≠ 0
    · have h2 : y - x ≠ 0 := by omega
      rw [if_pos h, if_pos h2]
      omega
    · have h2 : ¬ (y - x ≠ 0) := by omega
      rw [if_neg h, if_neg h2]
      exact firstDiff_antisymm xs ys

theorem compareVersion_ok (a b : JSString)
    (ha : validVersion a = true) (hb : validVersion b = true) :
    compareVersion a b =
      .ok (firstDiff
        (padZeros ((splitOnDot a).map jsParseInt)
          (max ((splitOnDot a).map jsParseInt).length
               ((splitOnDot b).map jsParseInt).length))
        (padZeros ((splitOnDot b).map jsParseInt)
          (max ((splitOnDot a).map jsParseInt).length
               ((splitOnDot b).map jsParseInt).length))) := by
  simp [compareVersion, ha, hb]

theorem compareVersion_eq_cmpVal (a b : JSString)
    (ha : validVersion a = true) (hb : validVersion b = true) :
    compareVersion a b = .ok (cmpVal a b) := by
  rw [cmpVal, compareVersion_ok a b ha hb]
  rfl

/-- Claim C5: for valid dotted-numeric version strings, `compareVersion`
pads the shorter operand with trailing zero components and returns the
first non-zero component-wise signed difference (`specCompareVersion`, the
algorithm as the specification words it); in particular
`compare("1.2", "1.2.0.0") = 0` and `compare("1.9", "1.10") < 0`. -/
theorem compareVersion_matches_spec :
    (∀ a b : JSString, validVersion a = true → validVersion b = true →
      compareVersion a b = .ok (specCompareVersion a b)) ∧
    compareVersion ("1.2".data) ("1.2.0.0".data) = .ok 0 ∧
    (∃ r, compareVersion ("1.9".data) ("1.10".data) = .ok r ∧ r < 0) := by
  refine ⟨fun a b ha hb => ?_, by decide, ⟨-1, by decide, by decide⟩⟩
  rw [compareVersion_ok a b ha hb]
  simp only [specCompareVersion, specParts, specPad, padZeros]
  rw [firstDiff_eq_spec]

/-- Witness for C5 at `a = "1.9"`, `b = "1.10"`. -/
theorem compareVersion_matches_spec_witness :
    validVersion ("1.9".data) = true ∧
    compareVersion ("1.9".data) ("1.10".data) =
      .ok (specCompareVersion ("1.9".data) ("1.10".data)) :=
  ⟨by decide,
   compareVersion_matches_spec.1 ("1.9".data) ("1.10".data) (by decide) (by decide)⟩

/-- Claim C9: for valid dotted-numeric version strings with up to four
components, `compareVersion` is antisymmetric
(`compare(a,b) = -compare(b,a)`) and reflexive (`compare(a,a) = 0`). -/
theorem compareVersion_antisymm_refl :
    ∀ a b : JSString, validVersion a = true → validVersion b = true →
      (∀ n : Int, compareVersion a b = .ok n → compareVersion b a = .ok (-n)) ∧
      compareVersion a a = .ok 0 := by
  intro a b ha hb
  constructor
  · intro n hn
    rw [compareVersion_ok a b ha hb] at hn
    rw [compareVersion_ok b a hb ha, Nat.max_comm]
    rw [firstDiff_antisymm] at hn
    cases hn
    simp
  · rw [compareVersion_ok a a ha ha]
    simp [firstDiff_self]

/-- Witness for C9 at `a = "1.2"`, `b = "2.0.1"`. -/
theorem compareVersion_antisymm_refl_witness :
    compareVersion ("2.0.1".data) ("1.2".data) = .ok (-(-1)) ∧
    compareVersion ("1.2".data) ("1.2".data) = .ok 0 :=
  ⟨(compareVersion_antisymm_refl ("1.2".data) ("2.0.1".data) (by decide)
      (by decide)).1 (-1) (by decide),
   (compareVersion_antisymm_refl ("1.2".data) ("2.0.1".data) (by decide)
      (by decide)).2⟩

/-- Claim C8: any string outside the grammar of one to four dot-separated
non-negative integer components — including a pre-release suffix such as
`"1.2-beta"` — makes `compareVersion` fail with a validation error naming
the offending parameter, and on grammar-conforming inputs it never
raises. -/
theorem compareVersion_validation :
    (∀ a b : JSString, validVersion a = false →
      compareVersion a b = .error ⟨.a, a⟩) ∧
    (∀ a b : JSString, validVersion a = true → validVersion b = false →
      compareVersion a b = .error ⟨.b, b⟩) ∧
    (∀ a b : JSString, validVersion a = true → validVersion b = true →
      ∃ n, compareVersion a b = .ok n) ∧
    validVersion ("1.2-beta".data) = false := by
  refine ⟨fun a b ha => ?_, fun a b ha hb => ?_, fun a b ha hb => ?_, by decide⟩
  · simp [compareVersion, ha]
  · simp [compareVersion, ha, hb]
  · exact ⟨_, compareVersion_ok a b ha hb⟩

/-- Witness for C8 at `a = "1.2-beta"`, `b = "1.0"`. -/
theorem compareVersion_validation_witness :
    compareVersion ("1.2-beta".data) ("1.0".data) =
      .error ⟨.a, ("1.2-beta".data)⟩ :=
  compareVersion_validation.1 ("1.2-beta".data) ("1.0".data) (by decide)

/-! ### The version filter (C4) -/

/-- Claim C4: for valid cached versions and a valid current version, the
update check keeps exactly the entries comparing greater than the current
version, in manifest order; concretely, cached `["1.0","2.0","1.5"]` with
current version `"1.2"` yields `["2.0","1.5"]` (shown on a cache-reusing
call of `updateAvailable`). -/
theorem updateCheck_filters_newer :
    (∀ (vs : List VersionData) (cur : JSString),
      (∀ v ∈ vs, validVersion v.version = true) → validVersion cur = true →
      filterNewer vs cur =
        .ok (vs.filter (fun v => decide (0 < cmpVal v.version cur)))) ∧
    updateAvailable
      { now := ⟨2024, 5, 1, 3600000⟩,
        storageGet := some ⟨getTime ⟨2024, 5, 1, 3600000⟩,
          [⟨("1.0".data), [], [], []⟩, ⟨("2.0".data), [], [], []⟩,
           ⟨("1.5".data), [], [], []⟩]⟩,
        fetchResult := .networkError, storageSetOk := true }
      .daily ("1.2".data)
    = { result := .ok [⟨("2.0".data), [], [], []⟩, ⟨("1.5".data), [], [], []⟩],
        storage := some ⟨getTime ⟨2024, 5, 1, 3600000⟩,
          [⟨("1.0".data), [], [], []⟩, ⟨("2.0".data), [], [], []⟩,
           ⟨("1.5".data), [], [], []⟩]⟩,
        didFetch := false } := by
  refine ⟨fun vs cur hvs hcur => ?_, by decide⟩
  induction vs with
  | nil => simp [filterNewer]
  | cons v rest ih =>
    have hv : validVersion v.version = true := hvs v (List.mem_cons_self v rest)
    have hrest : ∀ w ∈ rest, validVersion w.version = true :=
      fun w hw => hvs w (List.mem_cons_of_mem v hw)
    simp only [filterNewer, compareVersion_eq_cmpVal v.version cur hv hcur,
      ih hrest, List.filter_cons]
    by_cases hgt : 0 < cmpVal v.version cur
    · simp [except_bind_ok, except_pure_eq, hgt]
    · simp [except_bind_ok, except_pure_eq, hgt]

/-- Witness for C4 on the concrete manifest `["1.0","2.0","1.5"]` with
current version `"1.2"`. -/
theorem updateCheck_filters_newer_witness :
    filterNewer
      [⟨("1.0".data), [], [], []⟩, ⟨("2.0".data), [], [], []⟩,
       ⟨("1.5".data), [], [], []⟩] ("1.2".data)
    = .ok ([⟨("1.0".data), [], [], []⟩, ⟨("2.0".data), [], [], []⟩,
        ⟨("1.5".data), [], [], []⟩].filter
          (fun v => decide (0 < cmpVal v.version ("1.2".data)))) :=
  updateCheck_filters_newer.1
    [⟨("1.0".data), [], [], []⟩, ⟨("2.0".data), [], [], []⟩,
     ⟨("1.5".data), [], [], []⟩] ("1.2".data) (by decide) (by decide)

/-! ### Interval cutoffs (C2) -/

theorem daysFromCivilJS_day_shift (y m0 d k : Int) :
    daysFromCivilJS y m0 (d - k) = daysFromCivilJS y m0 d - k := by
  simp only [daysFromCivilJS]
  ring

theorem didFetch_iff (env : UpdateEnv) (interval : UpdateCheckInterval)
    (cur : JSString) :
    (updateAvailable env interval cur).didFetch =
      decide ((loadCacheOrDefault env.storageGet).lastChecked ≤
        getTime (intervalDates env.now interval)) := by
  by_cases h : (loadCacheOrDefault env.storageGet).lastChecked ≤
      getTime (intervalDates env.now interval)
  · cases hf : env.fetchResult with
    | networkError => simp [updateAvailable, h, hf]
    | response ok body =>
      cases body <;> simp [updateAvailable, h, hf]
  · simp [updateAvailable, h]

/-- Claim C2 (amended): the cutoff is the current moment for
`"every time"`; the current moment truncated to local start of day for
`"daily"`; the same minus seven days for `"weekly"`; the current moment
with its month decremented (JavaScript calendar normalisation) truncated to
start of day for `"monthly"`.  A fetch is issued iff the cached
`lastChecked` is at or before the cutoff.  With `lastChecked` equal to now,
`"every time"` always fetches, and `"daily"` issues no fetch provided the
current moment lies strictly after local midnight (at exactly
`00:00:00.000` the cutoff equals now and a fetch is issued). -/
theorem intervalCutoff_correct :
    (∀ now : JSDate, getTime (intervalDates now .everyTime) = getTime now) ∧
    (∀ now : JSDate,
      getTime (intervalDates now .daily) = getTime now - now.msOfDay) ∧
    (∀ now : JSDate,
      getTime (intervalDates now .weekly) =
        getTime now - now.msOfDay - 7 * 86400000) ∧
    (∀ now : JSDate,
      getTime (intervalDates now .monthly) =
        daysFromCivilJS now.year (now.month - 1) now.day * 86400000) ∧
    (∀ (env : UpdateEnv) (interval : UpdateCheckInterval) (cur : JSString),
      (updateAvailable env interval cur).didFetch =
        decide ((loadCacheOrDefault env.storageGet).lastChecked ≤
          getTime (intervalDates env.now interval))) ∧
    (∀ (env : UpdateEnv) (cur : JSString),
      (loadCacheOrDefault env.storageGet).lastChecked = getTime env.now →
      (updateAvailable env .everyTime cur).didFetch = true) ∧
    (∀ (env : UpdateEnv) (cur : JSString),
      (loadCacheOrDefault env.storageGet).lastChecked = getTime env.now →
      0 < env.now.msOfDay →
      (updateAvailable env .daily cur).didFetch = false) := by
  have hdaily : ∀ now : JSDate,
      getTime (intervalDates now .daily) = getTime now - now.msOfDay := by
    intro now
    simp [intervalDates, getIntervalDate, setHours0, getTime]
  refine ⟨fun now => rfl, hdaily, ?_, ?_, didFetch_iff, ?_, ?_⟩
  · intro now
    simp only [intervalDates, getIntervalDate, setHours0, setDate, getDate,
      getTime, daysFromCivilJS_day_shift]
    ring
  · intro now
    simp [intervalDates, getIntervalDate, setHours0, setMonth, getMonth,
      getTime]
  · intro env cur h
    rw [didFetch_iff, h]
    simp [intervalDates]
  · intro env cur h hms
    rw [didFetch_iff, h, hdaily]
    simp
    omega

/-- Witness for C2: a concrete afternoon moment where a cache stamped with
the current time is reused under `"daily"` but refreshed under
`"every time"`. -/
theorem intervalCutoff_correct_witness :
    (updateAvailable
      { now := ⟨2023, 10, 15, 1000⟩,
        storageGet := some ⟨getTime ⟨2023, 10, 15, 1000⟩, []⟩,
        fetchResult := .networkError, storageSetOk := true }
      .daily ("1.0".data)).didFetch = false ∧
    (updateAvailable
      { now := ⟨2023, 10, 15, 1000⟩,
        storageGet := some ⟨getTime ⟨2023, 10, 15, 1000⟩, []⟩,
        fetchResult := .networkError, storageSetOk := true }
      .everyTime ("1.0".data)).didFetch = true :=
  ⟨intervalCutoff_correct.2.2.2.2.2.2
      { now := ⟨2023, 10, 15, 1000⟩,
        storageGet := some ⟨getTime ⟨2023, 10, 15, 1000⟩, []⟩,
        fetchResult := .networkError, storageSetOk := true }
      ("1.0".data) rfl (by decide),
   intervalCutoff_correct.2.2.2.2.2.1
      { now := ⟨2023, 10, 15, 1000⟩,
        storageGet := some ⟨getTime ⟨2023, 10, 15, 1000⟩, []⟩,
        fetchResult := .networkError, storageSetOk := true }
      ("1.0".data) rfl⟩

/-- Counterexample to C2 as stated: at exactly local midnight
(2023-11-15 00:00:00.000), with `lastChecked` equal to now, a `"daily"`
check does issue a fetch, because `lastChecked <= cutoff` holds with
equality. -/
theorem intervalCutoff_midnight_counterexample :
    (updateAvailable
      { now := ⟨2023, 10, 15, 0⟩,
        storageGet := some ⟨getTime ⟨2023, 10, 15, 0⟩, []⟩,
        fetchResult := .networkError, storageSetOk := true }
      .daily ("1.0".data)).didFetch = true := by decide

/-! ### Fetch failures and cache preservation (C1) -/

/-- Claim C1 (amended): on a stale cache, a network error of the manifest
fetch — or a response body that fails to parse — makes the check fail and
leaves the persisted cache record exactly as loaded.  A non-success HTTP
status by itself is not detected: `updateAvailable` never inspects the
status, so a non-success response whose body parses as a version list is
cached and returned normally. -/
theorem updateCheck_fetch_failure_preserves_cache :
    ∀ (env : UpdateEnv) (interval : UpdateCheckInterval) (cur : JSString),
      (loadCacheOrDefault env.storageGet).lastChecked ≤
        getTime (intervalDates env.now interval) →
      (env.fetchResult = .networkError →
        updateAvailable env interval cur =
          { result := .error .fetchFailed, storage := env.storageGet,
            didFetch := true }) ∧
      (∀ ok : Bool, env.fetchResult = .response ok none →
        updateAvailable env interval cur =
          { result := .error .jsonParseFailed, storage := env.storageGet,
            didFetch := true }) := by
  intro env interval cur hstale
  constructor
  · intro hf
    simp [updateAvailable, hstale, hf]
  · intro ok hf
    simp [updateAvailable, hstale, hf]

/-- Witness for C1 at a concrete stale cache and a network error. -/
theorem updateCheck_fetch_failure_preserves_cache_witness :
    updateAvailable
      { now := ⟨1970, 0, 1, 1000⟩, storageGet := some ⟨0, []⟩,
        fetchResult := .networkError, storageSetOk := true }
      .everyTime ("1.0".data)
    = { result := .error .fetchFailed, storage := some ⟨0, []⟩,
        didFetch := true } :=
  (updateCheck_fetch_failure_preserves_cache
    { now := ⟨1970, 0, 1, 1000⟩, storageGet := some ⟨0, []⟩,
      fetchResult := .networkError, storageSetOk := true }
    .everyTime ("1.0".data) (by decide)).1 rfl

/-- Counterexample to C1 as stated: with a stale cache, a fetch that
returns a non-success status (`ok = false`) whose body parses as a version
list does not fail the check — it succeeds and overwrites the persisted
cache record. -/
theorem updateCheck_nonsuccess_status_counterexample :
    (updateAvailable
      { now := ⟨1970, 0, 1, 1000⟩, storageGet := some ⟨0, []⟩,
        fetchResult := .response false (some [⟨("2.0".data), [], [], []⟩]),
        storageSetOk := true }
      .everyTime ("1.0".data)).result = .ok [⟨("2.0".data), [], [], []⟩] ∧
    (updateAvailable
      { now := ⟨1970, 0, 1, 1000⟩, storageGet := some ⟨0, []⟩,
        fetchResult := .response false (some [⟨("2.0".data), [], [], []⟩]),
        storageSetOk := true }
      .everyTime ("1.0".data)).storage = some ⟨1000, [⟨("2.0".data), [], [], []⟩]⟩ ∧
    some (⟨1000, [⟨("2.0".data), [], [], []⟩]⟩ : StorageData) ≠ some ⟨0, []⟩ := by
  refine ⟨by decide, by decide, by decide⟩

/-! ### Loading the cache (C3) -/

/-- Claim C3 (amended): the update check's internal load substitutes the
default `{lastChecked: 0, versions: []}` when no record is stored, and the
check behaves (in its result and fetch decision) exactly as if the default
record were stored — absence never fails the check.  The separately exposed
`getCache`, however, returns the absent marker, not the default. -/
theorem cache_load_default :
    loadCacheOrDefault none = { lastChecked := 0, versions := [] } ∧
    getCache none = none ∧
    (∀ (now : JSDate) (f : FetchResult) (sOk : Bool)
        (interval : UpdateCheckInterval) (cur : JSString),
      (updateAvailable ⟨now, none, f, sOk⟩ interval cur).result =
        (updateAvailable ⟨now, some ⟨0, []⟩, f, sOk⟩ interval cur).result ∧
      (updateAvailable ⟨now, none, f, sOk⟩ interval cur).didFetch =
        (updateAvailable ⟨now, some ⟨0, []⟩, f, sOk⟩ interval cur).didFetch) := by
  refine ⟨rfl, rfl, fun now f sOk interval cur => ?_⟩
  by_cases h : (0 : Int) ≤ getTime (intervalDates now interval)
  · cases f with
    | networkError => simp [updateAvailable, loadCacheOrDefault, h]
    | response ok body =>
      cases body <;> simp [updateAvailable, loadCacheOrDefault, h]
  · constructor <;> simp [updateAvailable, loadCacheOrDefault, h, filterNewer]

/-- Counterexample to C3 as stated: `getCache` is a cache read exposed by
the component, yet with no stored record it returns the absent marker
rather than the default record. -/
theorem getCache_no_default_counterexample :
    getCache none ≠ some { lastChecked := 0, versions := [] } := by decide

/-! ### The install sequence (C6) -/

/-- Claim C6: `installDownloadedScript` performs exactly the two renames
live→backup and staging→live, in that order; interrupting after the first
rename leaves the backup populated with the old live contents, the staging
directory intact, and the live path absent, while completing both promotes
the staged contents to the live path. -/
theorem install_two_renames_in_order :
    ∀ (fs : FileSystem) (L S : List JSString),
      fs.live = some L → fs.staging = some S →
      (installDownloadedScript fs).2 =
        [InstallEvent.renameLiveToBackup, InstallEvent.renameStagingToLive] ∧
      (installDownloadedScript fs).1 = runInstallSteps installSteps.length fs ∧
      (runInstallSteps 1 fs).backup = some L ∧
      (runInstallSteps 1 fs).live = none ∧
      (runInstallSteps 1 fs).staging = some S ∧
      (runInstallSteps 2 fs).live = some S ∧
      (runInstallSteps 2 fs).backup = some L ∧
      (runInstallSteps 2 fs).staging = none := by
  intro fs L S hL hS
  refine ⟨rfl, rfl, ?_, ?_, ?_, ?_, ?_, ?_⟩ <;>
    simp [runInstallSteps, installSteps, renameLiveToBackup,
      renameStagingToLive, hL, hS]

/-- Witness for C6 on a concrete file system with a live directory and a
populated staging directory. -/
theorem install_two_renames_in_order_witness :
    (installDownloadedScript
      ⟨some [("old.js".data)], none, some [("new.js".data)], none⟩).2 =
      [InstallEvent.renameLiveToBackup, InstallEvent.renameStagingToLive] ∧
    (runInstallSteps 1
      ⟨some [("old.js".data)], none, some [("new.js".data)], none⟩).backup =
      some [("old.js".data)] ∧
    (runInstallSteps 1
      ⟨some [("old.js".data)], none, some [("new.js".data)], none⟩).live = none :=
  ⟨(install_two_renames_in_order
      ⟨some [("old.js".data)], none, some [("new.js".data)], none⟩
      [("old.js".data)] [("new.js".data)] rfl rfl).1,
   (install_two_renames_in_order
      ⟨some [("old.js".data)], none, some [("new.js".data)], none⟩
      [("old.js".data)] [("new.js".data)] rfl rfl).2.2.1,
   (install_two_renames_in_order
      ⟨some [("old.js".data)], none, some [("new.js".data)], none⟩
      [("old.js".data)] [("new.js".data)] rfl rfl).2.2.2.1⟩

/-! ### Download failure (C7) -/

/-- Claim C7: a non-success HTTP response makes `downloadUpdate` fail with
a `DownloadError` carrying the original URL and the response's status and
status text, distinguishable from the generic failures both by kind and by
its string form, and no file-system write happens before the error (the
file system is unchanged and the mutation trace is empty). -/
theorem download_nonsuccess_raises_before_writes :
    ∀ (url : JSString) (status : Int) (statusText : JSString)
      (bytes : Option (List JSString)) (fs : FileSystem),
      downloadUpdate url (.response false status statusText bytes) fs =
        { result := .error (.download url status statusText), fs := fs,
          events := [] } ∧
      DownloadErr.download url status statusText ≠ .network ∧
      DownloadErr.download url status statusText ≠ .conversion ∧
      downloadErrMessage (.download url status statusText) ≠
        downloadErrMessage .conversion := by
  intro url status statusText bytes fs
  refine ⟨by simp [downloadUpdate], by simp, by simp, ?_⟩
  intro h
  simp only [downloadErrMessage] at h
  have h2 := congrArg List.head? h
  simp only [List.append_assoc, List.cons_append, List.head?_cons] at h2
  exact absurd h2 (by decide)

/-! ### Staging accumulation (C10) -/

theorem mem_unzipMerge (existing archive : List JSString) (a : JSString)
    (h : a ∈ existing) : a ∈ unzipMerge existing archive := by
  by_cases hm : a ∈ archive
  · exact List.mem_append_right _ hm
  · refine List.mem_append_left _ ?_
    simp only [List.mem_filter]
    exact ⟨h, by simp [hm]⟩

/-- Claim C10: `downloadUpdate` never removes or empties the staging
directory first — it creates it only when absent, and extraction merges the
archive's entries on top of the existing contents, so every file left there
by an earlier download is still present afterwards and a subsequent install
promotes the whole merged directory to the live path. -/
theorem download_accumulates_staging :
    ∀ (url : JSString) (status : Int) (statusText : JSString)
      (archive : List JSString) (fs : FileSystem),
      (∀ s, fs.staging = some s →
        (downloadUpdate url (.response true status statusText (some archive))
          fs).fs.staging = some (unzipMerge s archive) ∧
        (downloadUpdate url (.response true status statusText (some archive))
          fs).events = [FsEvent.writeZip, FsEvent.unzipInto] ∧
        FsEvent.createStaging ∉
          (downloadUpdate url (.response true status statusText (some archive))
            fs).events ∧
        (∀ f ∈ s, f ∈ unzipMerge s archive) ∧
        (installDownloadedScript
          (downloadUpdate url (.response true status statusText (some archive))
            fs).fs).1.live = some (unzipMerge s archive)) ∧
      (fs.staging = none →
        (downloadUpdate url (.response true status statusText (some archive))
          fs).events =
            [FsEvent.writeZip, FsEvent.createStaging, FsEvent.unzipInto] ∧
        (downloadUpdate url (.response true status statusText (some archive))
          fs).fs.staging = some (unzipMerge [] archive)) := by
  intro url status statusText archive fs
  constructor
  · intro s hs
    refine ⟨?_, ?_, ?_, fun f hf => mem_unzipMerge s archive f hf, ?_⟩ <;>
      simp [downloadUpdate, installDownloadedScript, renameLiveToBackup,
        renameStagingToLive, hs]
  · intro hs
    constructor <;> simp [downloadUpdate, hs]

/-- Witness for C10: a leftover `old.js` in the staging directory survives
a later download of an archive containing `new.js`. -/
theorem download_accumulates_staging_witness :
    (downloadUpdate ("https://e.example/u.zip".data)
      (.response true 200 ("OK".data) (some [("new.js".data)]))
      ⟨some [("live.js".data)], none, some [("old.js".data)], none⟩).fs.staging =
      some (unzipMerge [("old.js".data)] [("new.js".data)]) ∧
    ("old.js".data) ∈ unzipMerge [("old.js".data)] [("new.js".data)] :=
  ⟨((download_accumulates_staging ("https://e.example/u.zip".data) 200
      ("OK".data) [("new.js".data)]
      ⟨some [("live.js".data)], none, some [("old.js".data)], none⟩).1
      [("old.js".data)] rfl).1,
   ((download_accumulates_staging ("https://e.example/u.zip".data) 200
      ("OK".data) [("new.js".data)]
      ⟨some [("live.js".data)], none, some [("old.js".data)], none⟩).1
      [("old.js".data)] rfl).2.2.2.1 ("old.js".data) (by decide)⟩

end ScriptUpdater
